import Mathlib

/-!
Shallow embedding of the audio pitch-shifting pipeline of `src/app.py`
(a single-file Streamlit application).  The pure data flow of
`process_audio` (lines 195-273), the process-button handler
(lines 276-301) and the result/download view (lines 304-328) are
translated into executable Lean definitions; the external capabilities
(ffmpeg/pydub decode, pydub sample-width/frame-rate conversion, the
librosa phase-vocoder pitch shift, and the MP3 export) are opaque in the
source and are modelled as function-valued fields of an `Externals`
record, together with a flag saying whether the staging write of the
upload bytes into the temporary file raises.
-/

namespace PitchApp

/-! ## Extension selection (app.py lines 197-200)

`file_ext = input_file.name.split('.')[-1].lower()`; the extension is
kept only when it is in the allow-list, otherwise `'mp3'` is used.
Python strings are modelled via their character lists; `str.lower` is
modelled on its ASCII fragment (`'A'..'Z'` map to `'a'..'z'`, every
other character is left unchanged), which decides membership in the
ASCII allow-list exactly as Python does. -/

def allowedExts : List String := ["mp3", "wav", "ogg", "m4a"]

/-- ASCII fragment of Python `str.lower`, one character at a time. -/
def lowerChar (c : Char) : Char :=
  if 65 ≤ c.toNat ∧ c.toNat ≤ 90 then Char.ofNat (c.toNat + 32) else c

/-- Python `s.split('.')` on the character list of `s`:
splitting on every dot, keeping empty parts, never returning `[]`. -/
def splitOnDot : List Char → List (List Char)
  | [] => [[]]
  | c :: rest =>
    let r := splitOnDot rest
    if c = '.' then [] :: r
    else
      match r with
      | [] => [[c]]
      | g :: gs => (c :: g) :: gs

/-- `name.split('.')[-1]`: the part after the last dot
(the whole name when there is no dot). -/
def lastPart (cs : List Char) : List Char :=
  (splitOnDot cs).getLastD []

/-- The staged-file extension computed by `process_audio`
(app.py lines 198-200), on a character list. -/
def fileExtCore (cs : List Char) : String :=
  let e := String.mk ((lastPart cs).map lowerChar)
  if e ∈ allowedExts then e else "mp3"

/-- The staged-file extension computed by `process_audio` (app.py
lines 198-200) from the uploaded file's name. -/
def fileExt (name : String) : String :=
  fileExtCore name.data

/-! ## Data model -/

/-- The exceptions that can be raised inside `process_audio`'s `try`
block or by the MP3 export in the button handler.  Python's
`except Exception` treats them uniformly; the constructors only record
which external call raised. -/
inductive PErr where
  | writeError        -- `tmp_file.write(...)` raised (e.g. OSError)
  | decodeError       -- `AudioSegment.from_file` raised
  | shiftError        -- `librosa.effects.pitch_shift` raised
  | shapeMismatch     -- numpy strided assignment raised ValueError
  | dataLengthError   -- pydub `AudioSegment.__init__` raised ValueError
  | exportError       -- `AudioSegment.export` raised
deriving Repr, DecidableEq

/-- pydub `AudioSegment`, reduced to the fields the pipeline reads:
raw sample data (one `Int` per 16-bit sample, interleaved when
multi-channel), frame rate, sample width in bytes, channel count. -/
structure AudioSegment where
  data : List Int
  frame_rate : Nat
  sample_width : Nat
  channels : Nat
deriving Repr, DecidableEq

/-- The uploaded file: declared name and raw byte buffer. -/
structure Upload where
  name : String
  bytes : List Nat
deriving Repr, DecidableEq

/-- The external capabilities `process_audio` calls into, plus the
outcome of the fallible staging write.  Making them inputs lets the
theorems quantify over every behaviour of ffmpeg/pydub/librosa. -/
structure Externals where
  /-- Does `tmp_file.write(input_file.getbuffer())` succeed?  The
  temporary file itself has already been created by
  `tempfile.NamedTemporaryFile(delete=False)` at that point. -/
  writeOk : Bool
  /-- `AudioSegment.from_file(tmp_path, format=file_ext)`: decoding the
  staged bytes under the chosen container format. -/
  decode : String → List Nat → Except PErr AudioSegment
  /-- Effect of pydub `set_sample_width(old, new)` on the raw data. -/
  widthConv : Nat → Nat → List Int → List Int
  /-- Effect of pydub `set_frame_rate(old, new)` on the raw data. -/
  resample : Nat → Nat → List Int → List Int
  /-- `librosa.effects.pitch_shift(buffer, sr=sr, n_steps=semitones)`,
  an opaque phase-vocoder pitch shift on a float channel buffer. -/
  shift : List ℚ → Nat → Int → Except PErr (List ℚ)
  /-- `AudioSegment.export(buffer, format="mp3")`: MP3 encoding. -/
  exportMp3 : AudioSegment → Except PErr (List Nat)

/-! ## Pipeline stages (app.py lines 195-273)

Sample values travel as `ℚ`: the decoded 16-bit integers are exact in
float32, as are division and multiplication by the power of two 32768,
so the rational model is exact everywhere the source manipulates
samples; only the opaque `shift` produces values outside that fragment,
and those are quantified over. -/

/-- pydub `audio.set_sample_width(w)`: fixes the `sample_width` field,
converting the raw data through the external converter. -/
def set_sample_width (E : Externals) (a : AudioSegment) (w : Nat) : AudioSegment :=
  { a with sample_width := w, data := E.widthConv a.sample_width w a.data }

/-- pydub `audio.set_frame_rate(r)`: fixes the `frame_rate` field,
resampling the raw data through the external resampler. -/
def set_frame_rate (E : Externals) (a : AudioSegment) (r : Nat) : AudioSegment :=
  { a with frame_rate := r, data := E.resample a.frame_rate r a.data }

/-- app.py line 208: `audio.set_sample_width(2).set_frame_rate(44100)`. -/
def normalizeAudio (E : Externals) (a : AudioSegment) : AudioSegment :=
  set_frame_rate E (set_sample_width E a 2) 44100

/-- Truncation toward zero of a rational, as the C cast underlying
`numpy.astype` truncates the fractional part. -/
def truncQ (q : ℚ) : Int :=
  q.num.tdiv (q.den : Int)

/-- Two's-complement wrap into the 16-bit signed range, the
behaviour of the numpy `astype(np.int16)` integer narrowing for
out-of-range values on the common platforms (the cast is
implementation-defined in C; the model fixes the wrapping choice). -/
def wrap16 (n : Int) : Int :=
  ((n + 32768) % 65536) - 32768

/-- One float sample through `astype(np.int16)` /
`np.array(..., dtype=np.int16)`: truncate, then wrap to 16 bits. -/
def i16ofFloat (q : ℚ) : Int :=
  wrap16 (truncQ q)

/-- A float buffer through `astype(np.int16)` (app.py lines 251,
258-259). -/
def astypeInt16 (l : List ℚ) : List Int :=
  l.map i16ofFloat

/-- app.py lines 241-246:
`librosa.effects.pitch_shift(channel_data/32768.0, sr=sr,
n_steps=semitones) * 32768.0`. -/
def process_channel (E : Externals) (sr : Nat) (semitones : Int)
    (channel_data : List ℚ) : Except PErr (List ℚ) :=
  (E.shift (channel_data.map (· / 32768)) sr semitones).map (·.map (· * 32768))

/-- Python slice `l[0::2]` (every even-indexed element). -/
def evens {α : Type} : List α → List α
  | [] => []
  | [x] => [x]
  | x :: _ :: rest => x :: evens rest

/-- Python slice `l[1::2]` (every odd-indexed element). -/
def odds {α : Type} (l : List α) : List α :=
  evens (l.drop 1)

/-- Alternating merge starting from the left list, the layout the two
strided assignments produce when they are accepted. -/
def interleave : List Int → List Int → List Int
  | [], ys => ys
  | x :: xs, [] => x :: xs
  | x :: xs, y :: ys => x :: y :: interleave xs ys

/-- app.py lines 257-259: `processed = np.empty(len(L) + len(R))`
followed by `processed[0::2] = L` and `processed[1::2] = R`.  numpy
rejects a strided assignment whose right-hand side does not have
exactly as many elements as the slice has slots, raising ValueError. -/
def stridedInterleave (L R : List Int) : Except PErr (List Int) :=
  let n := L.length + R.length
  if L.length ≠ (n + 1) / 2 then .error .shapeMismatch
  else if R.length ≠ n / 2 then .error .shapeMismatch
  else .ok (interleave L R)

/-- pydub `AudioSegment(data, frame_rate=..., sample_width=...,
channels=...)` (app.py lines 261-266).  The byte buffer passed in the
source is `processed.tobytes()`, of length `sample_width * len(data)`
since the array dtype is int16 and the declared width is 2; pydub's
constructor raises ValueError unless that byte length is a multiple of
`sample_width * channels` (and Python raises on the modulo when
`channels` is 0). -/
def mkAudioSegment (data : List Int) (frame_rate sample_width channels : Nat) :
    Except PErr AudioSegment :=
  if channels = 0 then .error .dataLengthError
  else if (sample_width * data.length) % (sample_width * channels) = 0 then
    .ok ⟨data, frame_rate, sample_width, channels⟩
  else .error .dataLengthError

/-- The body of `process_audio`'s `try` block from the decode onward
(app.py lines 206-266), as run when the staging write succeeded.
The waveform-preview plot (lines 214-236) reads the samples but feeds
nothing back into the pipeline and is omitted. -/
def process_core (E : Externals) (input : Upload) (semitones : Int) :
    Except PErr AudioSegment := do
  let file_ext := fileExt input.name
  let audio0 ← E.decode file_ext input.bytes
  let audio := normalizeAudio E audio0
  let samples : List ℚ := audio.data.map Int.cast
  let sr := audio.frame_rate
  let channels := audio.channels
  if channels = 1 then do
    let processed_samples ← process_channel E sr semitones samples
    let processed := astypeInt16 processed_samples
    mkAudioSegment processed sr 2 channels
  else do
    let left := evens samples
    let right := odds samples
    let processed_left ← process_channel E sr semitones left
    let processed_right ← process_channel E sr semitones right
    let processed ← stridedInterleave (astypeInt16 processed_left)
      (astypeInt16 processed_right)
    mkAudioSegment processed sr 2 channels

/-- `process_audio(input_file, semitones)` (app.py lines 195-273).
Returns the Python return value (`None` on any caught exception)
together with whether the staged temporary file still exists on disk
after the call.  `tempfile.NamedTemporaryFile(delete=False)` creates
the file unconditionally; `tmp_path` is bound only after the write into
it succeeded; the `finally` block removes the file only when the local
`tmp_path` is bound and the file exists. -/
def process_audio (E : Externals) (input : Upload) (semitones : Int) :
    Option AudioSegment × Bool :=
  let tmpCreated := true
  let tmpPathAssigned := E.writeOk
  let body : Except PErr AudioSegment :=
    if E.writeOk then process_core E input semitones else .error .writeError
  let result := body.toOption
  let tmpAfterFinally := if tmpPathAssigned && tmpCreated then false else tmpCreated
  (result, tmpAfterFinally)

/-! ## Session state, button handler and result view (app.py lines
132-138, 276-301, 304-328) -/

/-- The Streamlit session-state slots the handler touches.  `none`
models a slot that has never been assigned. -/
structure SessionState where
  processed : Bool
  processed_audio : Option AudioSegment
  output_buffer : Option (List Nat)
  processing_time : Option ℚ
deriving Repr, DecidableEq

/-- Python `round`: round half to even (pydub `AudioSegment.__len__`
calls it on the duration in milliseconds). -/
def pyRound (q : ℚ) : Int :=
  let f : Int := q.num / (q.den : Int)
  let r : ℚ := q - (f : ℚ)
  if r < 1 / 2 then f
  else if 1 / 2 < r then f + 1
  else if f % 2 = 0 then f else f + 1

/-- pydub `len(audio)`: `round(1000 * frame_count / frame_rate)` where
`frame_count` is the byte length divided by `frame_width =
sample_width * channels`.  The byte length of our `data` is
`sample_width * data.length`. -/
def lenMs (a : AudioSegment) : Int :=
  let frameWidth : ℚ := (a.sample_width : ℚ) * (a.channels : ℚ)
  let frameCount : ℚ := ((a.sample_width : ℚ) * (a.data.length : ℚ)) / frameWidth
  let durationSeconds : ℚ := frameCount / (a.frame_rate : ℚ)
  pyRound (1000 * durationSeconds)

/-- Python truthiness of the `processed_audio` value: `None` is falsy,
and an `AudioSegment` is falsy exactly when its `__len__` (duration in
milliseconds) is 0. -/
def truthySeg : Option AudioSegment → Bool
  | none => false
  | some a => lenMs a != 0

/-- The process-button handler (app.py lines 286-301).  Returns the
session state after the run together with the exception, if any, that
escaped the handler (the MP3 export at line 297 runs outside any
`try`).  Session-state assignments made before such an escape persist,
because Streamlit keeps `st.session_state` across the aborted script
run. -/
def handle_process (E : Externals) (state : SessionState) (input : Upload)
    (semitones : Int) (elapsed : ℚ) : SessionState × Option PErr :=
  match (process_audio E input semitones).1 with
  | none => (state, none)
  | some a =>
    if truthySeg (some a) then
      let state1 := { state with processed := true, processed_audio := some a }
      match E.exportMp3 a with
      | .error e => (state1, some e)
      | .ok buf =>
        ({ state1 with output_buffer := some buf, processing_time := some elapsed },
          none)
    else
      -- `if processed_audio:` is false for a sub-millisecond segment:
      -- the result is silently dropped and no state is written.
      (state, none)

/-- What the download button exposes (app.py lines 321-328). -/
structure DownloadView where
  data : List Nat
  file_name : String
  mime : String
deriving Repr, DecidableEq

/-- The results section (app.py lines 304-328): rendered only when
`st.session_state.processed and st.session_state.processed_audio` is
truthy; the download button then serves `output_buffer` under
`f"pitch_shifted_\x7bst.session_state.semitones\x7dst.mp3"`.
`semitones` is the session's current slider value.  (When
`output_buffer` was never assigned the real code raises
AttributeError; that corner is unreachable in the runs the claims
quantify over and is modelled as rendering nothing.) -/
def render_results (state : SessionState) (semitones : Int) : Option DownloadView :=
  if state.processed && truthySeg state.processed_audio then
    match state.output_buffer with
    | some buf =>
      some ⟨buf, "pitch_shifted_" ++ toString semitones ++ "st.mp3", "audio/mp3"⟩
    | none => none
  else none

/-! ## Spec-side definitions (used only to state claims, never by the
pipeline model) -/

/-- The staging-extension rule in the words of claim C3: the staged
extension is the filename's extension when that extension is in the
allow-list, and `mp3` for any other or missing extension.  A filename
without a dot has no extension, so it falls in the `missing` case. -/
def stagedExtAsClaimed (name : String) : String :=
  if '.' ∈ name.data then
    let e := String.mk ((lastPart name.data).map lowerChar)
    if e ∈ allowedExts then e else "mp3"
  else "mp3"

/-- The amended staging-extension rule: the candidate is the lowercased
part after the last dot, or the whole lowercased filename when the name
contains no dot; it is kept when in the allow-list, else `mp3`. -/
def stagedExtAmended (name : String) : String :=
  let cand :=
    if '.' ∈ name.data then String.mk ((lastPart name.data).map lowerChar)
    else String.mk (name.data.map lowerChar)
  if cand ∈ allowedExts then cand else "mp3"

/-- Saturating conversion to the 16-bit signed range: what an explicit
clipping policy would compute, stated for contrast with `i16ofFloat`
(the code performs no such clipping). -/
def satClamp (n : Int) : Int :=
  max (-32768) (min n 32767)

/-! ## Concrete environments and inputs for the closed instances -/

/-- A decoded mono segment of 23 zero samples: long enough that the
normalized output lasts a nonzero number of milliseconds so the handler
accepts it. -/
def monoSeg : AudioSegment := ⟨List.replicate 23 0, 8000, 1, 1⟩

/-- The normalized pipeline output for `monoSeg` under an identity
shifter. -/
def monoOutSeg : AudioSegment := ⟨List.replicate 23 0, 44100, 2, 1⟩

/-- Externals in which every call succeeds: the decoder yields `monoSeg`
and the pitch shifter is the identity. -/
def envMono : Externals where
  writeOk := true
  decode := fun _ _ => .ok monoSeg
  widthConv := fun _ _ d => d
  resample := fun _ _ d => d
  shift := fun l _ _ => .ok l
  exportMp3 := fun _ => .ok [7, 7, 7]

/-- Externals decoding to a 4-sample stereo segment, identity shifter. -/
def envStereo : Externals where
  writeOk := true
  decode := fun _ _ => .ok ⟨[0, 0, 0, 0], 8000, 1, 2⟩
  widthConv := fun _ _ d => d
  resample := fun _ _ d => d
  shift := fun l _ _ => .ok l
  exportMp3 := fun _ => .ok [7, 7, 7]

/-- Externals decoding to a 3-sample stereo segment (an odd interleaved
length, so the two channels come out with lengths 2 and 1), identity
shifter. -/
def envOddStereo : Externals where
  writeOk := true
  decode := fun _ _ => .ok ⟨[0, 0, 0], 8000, 1, 2⟩
  widthConv := fun _ _ d => d
  resample := fun _ _ d => d
  shift := fun l _ _ => .ok l
  exportMp3 := fun _ => .ok [7, 7, 7]

/-- Externals in which the staging write into the already-created
temporary file raises. -/
def envWriteFails : Externals where
  writeOk := false
  decode := fun _ _ => .ok monoSeg
  widthConv := fun _ _ d => d
  resample := fun _ _ d => d
  shift := fun l _ _ => .ok l
  exportMp3 := fun _ => .ok [7, 7, 7]

/-- Externals in which the decode raises. -/
def envDecodeFails : Externals where
  writeOk := true
  decode := fun _ _ => .error .decodeError
  widthConv := fun _ _ d => d
  resample := fun _ _ d => d
  shift := fun l _ _ => .ok l
  exportMp3 := fun _ => .ok [7, 7, 7]

/-- Externals in which decoding succeeds but the librosa pitch shift
raises. -/
def envShiftFails : Externals where
  writeOk := true
  decode := fun _ _ => .ok monoSeg
  widthConv := fun _ _ d => d
  resample := fun _ _ d => d
  shift := fun _ _ _ => .error .shiftError
  exportMp3 := fun _ => .ok [7, 7, 7]

/-- A concrete upload. -/
def upl : Upload := ⟨"x.wav", [1, 2, 3]⟩

/-- A session state holding the result of an earlier successful run,
used to observe that a failing run leaves it untouched. -/
def stPrior : SessionState := ⟨true, some monoOutSeg, some [9, 9], some 7⟩

deriving instance DecidableEq for Except

/-! ## Helper lemmas -/

theorem toNat_ofNat_valid {n : Nat} (h : n < 55296) : (Char.ofNat n).toNat = n := by
  rw [Char.ofNat, dif_pos (Or.inl h : Nat.isValidChar n)]
  rfl

theorem lowerChar_toNat_of_upper {c : Char} (h : 65 ≤ c.toNat ∧ c.toNat ≤ 90) :
    (lowerChar c).toNat = c.toNat + 32 := by
  rw [lowerChar, if_pos h, toNat_ofNat_valid (by omega)]

theorem lowerChar_eq_dot_iff {c : Char} : lowerChar c = '.' ↔ c = '.' := by
  constructor
  · intro h
    by_cases hu : 65 ≤ c.toNat ∧ c.toNat ≤ 90
    · have := lowerChar_toNat_of_upper hu
      rw [h] at this
      have hdot : ('.' : Char).toNat = 46 := by decide
      omega
    · rwa [lowerChar, if_neg hu] at h
  · intro h; subst h; decide

theorem lowerChar_eq_self (c : Char) (hu : ¬(65 ≤ c.toNat ∧ c.toNat ≤ 90)) :
    lowerChar c = c := by
  rw [lowerChar, if_neg hu]

theorem lowerChar_idem (c : Char) : lowerChar (lowerChar c) = lowerChar c := by
  by_cases hu : 65 ≤ c.toNat ∧ c.toNat ≤ 90
  · have ht := lowerChar_toNat_of_upper hu
    conv_lhs => rw [lowerChar]
    rw [if_neg (by omega)]
  · rw [lowerChar_eq_self c hu, lowerChar_eq_self c hu]

theorem splitOnDot_ne_nil (cs : List Char) : splitOnDot cs ≠ [] := by
  cases cs with
  | nil => simp [splitOnDot]
  | cons c rest =>
    rw [splitOnDot]
    split
    · simp
    · split <;> simp

theorem splitOnDot_map_lower (cs : List Char) :
    splitOnDot (cs.map lowerChar) = (splitOnDot cs).map (List.map lowerChar) := by
  induction cs with
  | nil => rfl
  | cons c rest ih =>
    rw [List.map_cons, splitOnDot, splitOnDot, ih]
    by_cases hd : c = '.'
    · rw [if_pos (lowerChar_eq_dot_iff.mpr hd), if_pos hd, List.map_cons]
      rfl
    · rw [if_neg (fun h => hd (lowerChar_eq_dot_iff.mp h)), if_neg hd]
      cases h : splitOnDot rest with
      | nil => exact absurd h (splitOnDot_ne_nil rest)
      | cons g gs => simp

theorem getLastD_map {α β : Type} (f : α → β) (l : List α) (d : α) :
    (l.map f).getLastD (f d) = f (l.getLastD d) := by
  induction l generalizing d with
  | nil => rfl
  | cons a l ih => rw [List.map_cons, List.getLastD_cons, List.getLastD_cons, ih]

theorem lastPart_map_lower (cs : List Char) :
    lastPart (cs.map lowerChar) = (lastPart cs).map lowerChar := by
  rw [lastPart, lastPart, splitOnDot_map_lower]
  exact getLastD_map (List.map lowerChar) (splitOnDot cs) []

theorem map_lowerChar_idem (l : List Char) :
    (l.map lowerChar).map lowerChar = l.map lowerChar := by
  rw [List.map_map]
  exact List.map_congr_left fun c _ => lowerChar_idem c

theorem fileExtCore_map_lower (cs : List Char) :
    fileExtCore (cs.map lowerChar) = fileExtCore cs := by
  rw [fileExtCore, fileExtCore, lastPart_map_lower, map_lowerChar_idem]

theorem splitOnDot_no_dot (cs : List Char) (h : '.' ∉ cs) : splitOnDot cs = [cs] := by
  induction cs with
  | nil => rfl
  | cons c rest ih =>
    rw [splitOnDot]
    have hc : c ≠ '.' := fun hh => h (hh ▸ List.mem_cons_self c rest)
    rw [if_neg hc, ih (fun hh => h (List.mem_cons_of_mem c hh))]

theorem evens_getElem? {α : Type} : ∀ (l : List α) (i : Nat), (evens l)[i]? = l[2 * i]?
  | [], i => by simp [evens]
  | [x], i => by
    cases i with
    | zero => simp [evens]
    | succ n => simp [evens, Nat.mul_succ]
  | x :: y :: rest, i => by
    cases i with
    | zero => simp [evens]
    | succ n =>
      have ih := evens_getElem? rest n
      rw [evens]
      rw [show 2 * (n + 1) = 2 * n + 1 + 1 by omega]
      simp [ih]

theorem odds_getElem? {α : Type} (l : List α) (i : Nat) : (odds l)[i]? = l[2 * i + 1]? := by
  rw [odds, evens_getElem?]
  cases l with
  | nil => simp
  | cons a l => simp [show 2 * i + 1 = (2 * i) + 1 by rfl]

theorem interleave_length (L R : List Int) : (interleave L R).length = L.length + R.length := by
  induction L generalizing R with
  | nil => simp [interleave]
  | cons x xs ih =>
    cases R with
    | nil => simp [interleave]
    | cons y ys =>
      rw [interleave]
      simp only [List.length_cons, ih]
      omega

theorem mkAudioSegment_ok {d : List Int} {fr w ch : Nat} {out : AudioSegment}
    (h : mkAudioSegment d fr w ch = .ok out) : out = ⟨d, fr, w, ch⟩ := by
  rw [mkAudioSegment] at h
  split at h
  · exact absurd h (by simp)
  · split at h
    · cases h; rfl
    · exact absurd h (by simp)

theorem except_bind_ok {eTy aTy bTy : Type} (a : aTy) (f : aTy → Except eTy bTy) :
    (Except.ok a >>= f) = f a := rfl

theorem except_bind_error {eTy aTy bTy : Type} (e : eTy) (f : aTy → Except eTy bTy) :
    ((Except.error e : Except eTy aTy) >>= f) = Except.error e := rfl

theorem normalizeAudio_frame_rate (E : Externals) (a : AudioSegment) :
    (normalizeAudio E a).frame_rate = 44100 := rfl

theorem normalizeAudio_sample_width (E : Externals) (a : AudioSegment) :
    (normalizeAudio E a).sample_width = 2 := rfl

theorem normalizeAudio_channels (E : Externals) (a : AudioSegment) :
    (normalizeAudio E a).channels = a.channels := rfl

theorem process_core_ok {E : Externals} {input : Upload} {semitones : Int}
    {out : AudioSegment} (h : process_core E input semitones = .ok out) :
    ∃ a0, E.decode (fileExt input.name) input.bytes = .ok a0
      ∧ out.frame_rate = 44100 ∧ out.sample_width = 2 ∧ out.channels = a0.channels := by
  rw [process_core] at h
  cases hdec : E.decode (fileExt input.name) input.bytes with
  | error e => rw [hdec, except_bind_error] at h; exact absurd h (by simp)
  | ok a0 =>
    rw [hdec, except_bind_ok] at h
    refine ⟨a0, rfl, ?_⟩
    dsimp only at h
    split at h
    · rename_i hch
      cases hpc : process_channel E (normalizeAudio E a0).frame_rate semitones
          ((normalizeAudio E a0).data.map Int.cast) with
      | error e => rw [hpc, except_bind_error] at h; exact absurd h (by simp)
      | ok ps =>
        rw [hpc, except_bind_ok] at h
        have := mkAudioSegment_ok h
        rw [this]
        exact ⟨rfl, rfl, hch ▸ rfl⟩
    · rename_i hch
      cases hl : process_channel E (normalizeAudio E a0).frame_rate semitones
          (evens ((normalizeAudio E a0).data.map Int.cast)) with
      | error e => rw [hl, except_bind_error] at h; exact absurd h (by simp)
      | ok pl =>
        rw [hl, except_bind_ok] at h
        cases hr : process_channel E (normalizeAudio E a0).frame_rate semitones
            (odds ((normalizeAudio E a0).data.map Int.cast)) with
        | error e => rw [hr, except_bind_error] at h; exact absurd h (by simp)
        | ok pr =>
          rw [hr, except_bind_ok] at h
          cases hsi : stridedInterleave (astypeInt16 pl) (astypeInt16 pr) with
          | error e => rw [hsi, except_bind_error] at h; exact absurd h (by simp)
          | ok il =>
            rw [hsi, except_bind_ok] at h
            have := mkAudioSegment_ok h
            rw [this]
            exact ⟨rfl, rfl, rfl⟩


/-! ## Claim theorems -/

section ClaimProofs

attribute [local semireducible] Rat.mul Rat.add Rat.inv Rat.sub

/-- C1: the claim demands that the staged temporary file never exists
after `process_audio` returns; the code violates it on the exit path
where the write of the upload bytes into the freshly created temporary
file raises: `tmp_path` is then unbound, the cleanup guard
`'tmp_path' in locals()` is false, and the file is left on disk.  The
first conjunct evaluates the model on that failing input; the second
shows for contrast that a decode failure does clean up. -/
theorem temp_file_persists_when_staging_write_raises :
    process_audio envWriteFails ⟨"song.mp3", [1]⟩ 3 = (none, true)
    ∧ process_audio envDecodeFails ⟨"song.mp3", [1]⟩ 3 = (none, false) := by
  decide

/-- C2: when the staging write and the decode succeed but a later stage
(shift, rescale/re-interleave, or the AudioSegment wrap) raises,
`process_audio` catches the exception and returns `None`, and the
button handler leaves the session state exactly as it was, with no
escaping exception. -/
theorem shift_stage_failure_caught_state_preserved
    (E : Externals) (input : Upload) (semitones : Int) (state : SessionState)
    (elapsed : ℚ) (a0 : AudioSegment) (e : PErr)
    (hw : E.writeOk = true)
    (hdec : E.decode (fileExt input.name) input.bytes = .ok a0)
    (hfail : process_core E input semitones = .error e) :
    (process_audio E input semitones).1 = none
    ∧ handle_process E state input semitones elapsed = (state, none) := by
  have h1 : (process_audio E input semitones).1 = none := by
    simp [process_audio, hw, hfail, Except.toOption]
  exact ⟨h1, by simp [handle_process, h1]⟩

theorem shift_stage_failure_caught_state_preserved_witness :
    envShiftFails.writeOk = true
    ∧ envShiftFails.decode (fileExt upl.name) upl.bytes = .ok monoSeg
    ∧ process_core envShiftFails upl 2 = .error .shiftError
    ∧ (process_audio envShiftFails upl 2).1 = none
    ∧ handle_process envShiftFails stPrior upl 2 1 = (stPrior, none) := by
  have hc : process_core envShiftFails upl 2 = .error .shiftError := by decide
  have main := shift_stage_failure_caught_state_preserved envShiftFails upl 2
    stPrior 1 monoSeg .shiftError rfl rfl hc
  exact ⟨rfl, rfl, hc, main.1, main.2⟩

/-- C3 counterexample: a filename with no dot, hence no extension, whose
whole name happens to be in the allow-list.  The claim says staging must
default to mp3; the code stages it with extension wav. -/
theorem dotless_allowlist_name_not_defaulted :
    fileExt "wav" = "wav" ∧ stagedExtAsClaimed "wav" = "mp3"
    ∧ fileExt "wav" ≠ stagedExtAsClaimed "wav" := by
  decide

/-- C3 amended: the staged extension is the lowercased part after the
last dot — or the whole lowercased filename when the name contains no
dot — when that is in the allow-list, and mp3 otherwise. -/
theorem staged_extension_characterized (name : String) :
    fileExt name = stagedExtAmended name := by
  by_cases hd : '.' ∈ name.data
  · simp only [fileExt, fileExtCore, stagedExtAmended, if_pos hd]
  · simp only [fileExt, fileExtCore, stagedExtAmended, if_neg hd, lastPart,
      splitOnDot_no_dot name.data hd, List.getLastD_cons, List.getLastD_nil]

/-- C4: normalization forces sample width 2 and frame rate 44100 on the
decoded audio, and every successful pipeline output carries the
post-normalization rate 44100 (the `sr` used downstream is the
normalized segment's frame rate). -/
theorem decode_normalization_width_rate
    (E : Externals) (a : AudioSegment) (input : Upload) (semitones : Int)
    (out : AudioSegment) :
    (normalizeAudio E a).sample_width = 2
    ∧ (normalizeAudio E a).frame_rate = 44100
    ∧ (process_core E input semitones = .ok out → out.frame_rate = 44100) := by
  refine ⟨rfl, rfl, fun h => ?_⟩
  obtain ⟨a0, -, hfr, -, -⟩ := process_core_ok h
  exact hfr

theorem decode_normalization_width_rate_witness :
    process_core envMono upl 2 = .ok monoOutSeg
    ∧ ((normalizeAudio envMono monoSeg).sample_width = 2
       ∧ (normalizeAudio envMono monoSeg).frame_rate = 44100
       ∧ monoOutSeg.frame_rate = 44100) := by
  have hok : process_core envMono upl 2 = .ok monoOutSeg := by decide
  have h := decode_normalization_width_rate envMono monoSeg upl 2 monoOutSeg
  exact ⟨hok, h.1, h.2.1, h.2.2 hok⟩

/-- C5: the stereo split takes channel 0 from the even indices and
channel 1 from the odd indices, and `process_channel` hands the shifter
the channel buffer divided elementwise by 32768. -/
theorem channel_split_and_scaling (samples channel_data : List ℚ) (i : Nat)
    (E : Externals) (sr : Nat) (semitones : Int) :
    (evens samples)[i]? = samples[2 * i]?
    ∧ (odds samples)[i]? = samples[2 * i + 1]?
    ∧ process_channel E sr semitones channel_data
      = (E.shift (channel_data.map (· / 32768)) sr semitones).map
          (·.map (· * 32768)) :=
  ⟨evens_getElem? samples i, odds_getElem? samples i, rfl⟩

/-- C6: every shifted channel is multiplied by 32768 and pushed through
the raw int16 cast; the cast is plain truncation on the representable
range and wraps (never saturates) outside it, e.g. the sample 1.0 whose
scaled value 32768 becomes -32768 instead of the clamp's 32767. -/
theorem rescale_is_unclipped_cast :
    (∀ (E : Externals) (sr : Nat) (semitones : Int) (c ps : List ℚ),
      process_channel E sr semitones c = .ok ps →
      ∃ y, E.shift (c.map (· / 32768)) sr semitones = .ok y
        ∧ ps = y.map (· * 32768)
        ∧ astypeInt16 ps = y.map (fun v => i16ofFloat (v * 32768)))
    ∧ (∀ q : ℚ, -32768 ≤ truncQ q → truncQ q ≤ 32767 → i16ofFloat q = truncQ q)
    ∧ i16ofFloat ((1 : ℚ) * 32768) = -32768
    ∧ satClamp (truncQ ((1 : ℚ) * 32768)) = 32767
    ∧ i16ofFloat ((1 : ℚ) * 32768) ≠ satClamp (truncQ ((1 : ℚ) * 32768)) := by
  refine ⟨?_, ?_, by decide, by decide, by decide⟩
  · intro E sr semitones c ps h
    rw [process_channel] at h
    cases hs : E.shift (c.map (· / 32768)) sr semitones with
    | error e => rw [hs] at h; simp [Except.map] at h
    | ok y =>
      rw [hs] at h
      simp only [Except.map, Except.ok.injEq] at h
      refine ⟨y, rfl, h.symm, ?_⟩
      rw [← h, astypeInt16, List.map_map]
      rfl
  · intro q h1 h2
    rw [i16ofFloat, wrap16]
    omega

theorem rescale_is_unclipped_cast_witness :
    process_channel envMono 44100 2 [0] = .ok [0]
    ∧ (-32768 : Int) ≤ truncQ 5 ∧ truncQ 5 ≤ 32767
    ∧ (∃ y, envMono.shift (([0] : List ℚ).map (· / 32768)) 44100 2 = .ok y
        ∧ ([0] : List ℚ) = y.map (· * 32768)
        ∧ astypeInt16 [0] = y.map (fun v => i16ofFloat (v * 32768)))
    ∧ i16ofFloat 5 = truncQ 5 := by
  have h := rescale_is_unclipped_cast
  refine ⟨by decide, by decide, by decide, ?_, ?_⟩
  · exact h.1 envMono 44100 2 [0] [0] (by decide)
  · exact h.2.1 5 (by decide) (by decide)

/-- C7: the channel count of the decoded segment passes unchanged
through normalization and into the output `AudioSegment`, so mono stays
mono and stereo stays stereo. -/
theorem output_channels_match_decoded
    (E : Externals) (input : Upload) (semitones : Int) (a0 out : AudioSegment)
    (hdec : E.decode (fileExt input.name) input.bytes = .ok a0)
    (hout : (process_audio E input semitones).1 = some out) :
    out.channels = a0.channels := by
  rw [process_audio] at hout
  dsimp only at hout
  split at hout
  · cases hc : process_core E input semitones with
    | error e => rw [hc] at hout; simp [Except.toOption] at hout
    | ok o =>
      rw [hc] at hout
      simp only [Except.toOption, Option.some.injEq] at hout
      subst hout
      obtain ⟨a0x, hdecx, -, -, hch⟩ := process_core_ok hc
      rw [hdec] at hdecx
      cases hdecx
      exact hch
  · simp [Except.toOption] at hout

theorem output_channels_match_decoded_witness :
    envStereo.decode (fileExt upl.name) upl.bytes
      = .ok ⟨[0, 0, 0, 0], 8000, 1, 2⟩
    ∧ (process_audio envStereo upl 2).1 = some ⟨[0, 0, 0, 0], 44100, 2, 2⟩
    ∧ (⟨[0, 0, 0, 0], 44100, 2, 2⟩ : AudioSegment).channels
      = (⟨[0, 0, 0, 0], 8000, 1, 2⟩ : AudioSegment).channels := by
  have h2 : (process_audio envStereo upl 2).1 = some ⟨[0, 0, 0, 0], 44100, 2, 2⟩ := by
    decide
  exact ⟨rfl, h2, output_channels_match_decoded envStereo upl 2 _ _ rfl h2⟩

/-- C8: a successful, accepted run writes the exported MP3 buffer and
the result flags into the session state, and the results section then
offers exactly that buffer for download as audio/mp3 under
`pitch_shifted_{semitones}st.mp3` with the applied semitone value. -/
theorem successful_run_download_view
    (E : Externals) (state : SessionState) (input : Upload) (semitones : Int)
    (elapsed : ℚ) (a : AudioSegment) (buf : List Nat)
    (ha : (process_audio E input semitones).1 = some a)
    (ht : lenMs a ≠ 0)
    (hexp : E.exportMp3 a = .ok buf) :
    handle_process E state input semitones elapsed
      = (⟨true, some a, some buf, some elapsed⟩, none)
    ∧ render_results (handle_process E state input semitones elapsed).1 semitones
      = some ⟨buf, "pitch_shifted_" ++ toString semitones ++ "st.mp3", "audio/mp3"⟩ := by
  have htr : truthySeg (some a) = true := by
    simp [truthySeg, ht]
  have h1 : handle_process E state input semitones elapsed
      = (⟨true, some a, some buf, some elapsed⟩, none) := by
    simp [handle_process, ha, htr, hexp]
  refine ⟨h1, ?_⟩
  rw [h1]
  rw [render_results]
  simp [htr]

theorem successful_run_download_view_witness :
    (process_audio envMono upl (-12)).1 = some monoOutSeg
    ∧ lenMs monoOutSeg = 1
    ∧ envMono.exportMp3 monoOutSeg = .ok [7, 7, 7]
    ∧ handle_process envMono stPrior upl (-12) 7
      = (⟨true, some monoOutSeg, some [7, 7, 7], some 7⟩, none)
    ∧ render_results (handle_process envMono stPrior upl (-12) 7).1 (-12)
      = some ⟨[7, 7, 7], "pitch_shifted_-12st.mp3", "audio/mp3"⟩ := by
  have ha : (process_audio envMono upl (-12)).1 = some monoOutSeg := by decide
  have hm : lenMs monoOutSeg = 1 := by decide
  have main := successful_run_download_view envMono stPrior upl (-12) 7 monoOutSeg
    [7, 7, 7] ha (by rw [hm]; decide) rfl
  exact ⟨ha, hm, rfl, main.1, by rw [main.2]; rfl⟩


theorem stridedInterleave_mk_none (L R : List Int) (fr : Nat)
    (hne : L.length ≠ R.length) :
    ((stridedInterleave L R >>= fun p => mkAudioSegment p fr 2 2).toOption
      = none) := by
  rw [stridedInterleave]
  by_cases h1 : L.length = (L.length + R.length + 1) / 2
  · rw [if_neg (by omega)]
    by_cases h2 : R.length = (L.length + R.length) / 2
    · rw [if_neg (by omega), except_bind_ok]
      have hlr : L.length = R.length + 1 := by omega
      rw [mkAudioSegment]
      rw [if_neg (by omega)]
      rw [if_neg (by rw [interleave_length]; omega)]
      rfl
    · rw [if_pos h2, except_bind_error]
      rfl
  · rw [if_pos h1, except_bind_error]
    rfl

/-- C9 counterexample: a stereo run whose shifted channels have lengths
2 and 1.  Contrary to the claim, the strided re-interleave does not
raise (both slice assignments are accepted); the run still returns no
result, but only because the AudioSegment constructor rejects the
odd-length interleaved buffer. -/
theorem length_mismatch_interleave_can_succeed :
    (astypeInt16 [0, 0]).length ≠ (astypeInt16 [0]).length
    ∧ stridedInterleave (astypeInt16 [0, 0]) (astypeInt16 [0]) = .ok [0, 0, 0]
    ∧ (process_audio envOddStereo upl 2).1 = none
    ∧ mkAudioSegment [0, 0, 0] 44100 2 2 = .error .dataLengthError := by
  decide

/-- C9 amended: in a stereo run whose two shifted channel buffers have
different lengths, either the strided re-interleave raises (whenever the
left length is not exactly the right length plus one) or the interleave
succeeds and the AudioSegment constructor raises on the odd-length
buffer; in every case the exception is caught and the pipeline returns
no result, so no output with misaligned channels is ever emitted. -/
theorem stereo_length_mismatch_yields_none
    (E : Externals) (input : Upload) (semitones : Int) (a0 : AudioSegment)
    (sl sr2 : List ℚ)
    (hw : E.writeOk = true)
    (hdec : E.decode (fileExt input.name) input.bytes = .ok a0)
    (hch : a0.channels = 2)
    (hl : E.shift ((evens ((normalizeAudio E a0).data.map Int.cast)).map (· / 32768))
        44100 semitones = .ok sl)
    (hr : E.shift ((odds ((normalizeAudio E a0).data.map Int.cast)).map (· / 32768))
        44100 semitones = .ok sr2)
    (hne : sl.length ≠ sr2.length) :
    (process_audio E input semitones).1 = none := by
  have hpl : process_channel E (normalizeAudio E a0).frame_rate semitones
      (evens ((normalizeAudio E a0).data.map Int.cast)) = .ok (sl.map (· * 32768)) := by
    rw [process_channel, normalizeAudio_frame_rate, hl]
    rfl
  have hpr : process_channel E (normalizeAudio E a0).frame_rate semitones
      (odds ((normalizeAudio E a0).data.map Int.cast)) = .ok (sr2.map (· * 32768)) := by
    rw [process_channel, normalizeAudio_frame_rate, hr]
    rfl
  have hcore : (process_core E input semitones).toOption = none := by
    rw [process_core, hdec, except_bind_ok]
    dsimp only
    rw [if_neg (by simp [normalizeAudio_channels, hch])]
    rw [hpl, except_bind_ok]
    rw [hpr, except_bind_ok]
    rw [show (normalizeAudio E a0).channels = 2 by rw [normalizeAudio_channels, hch]]
    refine Eq.trans ?_ (stridedInterleave_mk_none (astypeInt16 (sl.map (· * 32768)))
      (astypeInt16 (sr2.map (· * 32768))) (normalizeAudio E a0).frame_rate
      (by simp [astypeInt16, hne]))
    rfl
  have hres : (process_audio E input semitones).1
      = (process_core E input semitones).toOption := by
    simp [process_audio, hw]
  rw [hres, hcore]

theorem stereo_length_mismatch_yields_none_witness :
    envOddStereo.writeOk = true
    ∧ envOddStereo.decode (fileExt upl.name) upl.bytes = .ok ⟨[0, 0, 0], 8000, 1, 2⟩
    ∧ (⟨[0, 0, 0], 8000, 1, 2⟩ : AudioSegment).channels = 2
    ∧ ((evens ((normalizeAudio envOddStereo ⟨[0, 0, 0], 8000, 1, 2⟩).data.map
          (Int.cast : Int → ℚ))).map (· / 32768)).length
      ≠ ((odds ((normalizeAudio envOddStereo ⟨[0, 0, 0], 8000, 1, 2⟩).data.map
          (Int.cast : Int → ℚ))).map (· / 32768)).length
    ∧ (process_audio envOddStereo upl 2).1 = none := by
  refine ⟨rfl, rfl, rfl, by decide, ?_⟩
  exact stereo_length_mismatch_yields_none envOddStereo upl 2 _ _ _ rfl rfl rfl
    rfl rfl (by decide)

/-- C10: the extension check lowercases the part after the last dot
before comparing with the allow-list, so the whole selection is
invariant under upper/lower case of the filename, and an uppercase
extension such as in SONG.WAV is accepted as wav rather than falling
back to mp3. -/
theorem extension_matching_is_case_insensitive :
    (∀ cs : List Char, fileExtCore (cs.map lowerChar) = fileExtCore cs)
    ∧ fileExt "SONG.WAV" = "wav"
    ∧ (lastPart ("SONG.WAV").data).map lowerChar ≠ lastPart ("SONG.WAV").data :=
  ⟨fileExtCore_map_lower, by decide, by decide⟩

end ClaimProofs

end PitchApp
